import Mathlib

/-!
Verification of the redundant-line elimination core of `svg_processor.py`
(`SvgProcessor.remove_redundant_lines` and its helpers `_get_slope_intersect`,
`_lines_are_collinear`, `_pairwise_overlap_check`).

Embedding conventions:
* The Python code computes with `complex` floating-point coordinates; the
  embedding uses exact rationals `ℚ`.  A point is a `Pt` with fields
  `real`/`imag`, matching the `complex` attributes used by the source.
* `svg.path` primitives `Move`, `Line`, `Close` become the inductive `Prim`;
  each carries its `start`/`end` points.  In-place mutation of a segment's
  endpoints becomes functional update of the bucket record / map entry that
  holds it (in the source every mutation site immediately re-stores the
  mutated object in `to_update`, so value semantics coincide with the
  object aliasing of the original).
* Python dicts (`to_remove`, `to_update`, the bucket `defaultdict`) are
  insertion-ordered; they become association lists with Python's dict
  semantics: overwrite keeps the position, fresh keys append at the end.
* Euclidean length `Line.length()` is `Real.sqrt` of `dist_sq`.  The
  algorithm only ever *compares* lengths, so the embedding compares squared
  lengths (strict `<` is preserved by `Real.sqrt`, see
  `sqrt_dist_sq_lt_iff` below), and the assertion
  `line1.length() + eps >= line2.length()` is embedded as the exact
  decidable condition `lenLeLenAddEps` proved equivalent in
  `lenLeLenAddEps_iff`.
* Python `assert` failures and the `Exceeded the max number ...` exception
  become the `Except PErr` error monad.
* Python `round(x, 3)` (round-half-to-even on the scaled value) becomes
  `round3`.
-/

/-- The global tolerance constant `eps = 0.001` of `svg_processor.py`. -/
def eps : ℚ := 1 / 1000

/-- A 2-D point; the source stores points as `complex` with fields
`real`/`imag`. -/
structure Pt where
  real : ℚ
  imag : ℚ
deriving DecidableEq, Repr

/-- Squared Euclidean distance of two points.  `Line.length()` in `svg.path`
is `abs(end - start) = Real.sqrt (dist_sq start end)`. -/
def dist_sq (p q : Pt) : ℚ :=
  (p.real - q.real) ^ 2 + (p.imag - q.imag) ^ 2

/-- Errors of the reducer: the three `assert` statements of the source and
the `Exceeded the max number of pairwise overlap check passes` exception. -/
inductive PErr where
  | assertIntercept
  | assertContain
  | exceededMaxPasses
  | assertRecon
deriving DecidableEq, Repr

/-- The value `_get_slope_intersect(p1, p2)` computes when its assert passes:
`(None, x)` for a near-vertical pair of points, otherwise `(m, b)`. -/
def slope_intersect (p1 p2 : Pt) : Option ℚ × ℚ :=
  if |p1.real - p2.real| < eps then (none, p1.real)
  else
    let m := (p2.imag - p1.imag) / (p2.real - p1.real)
    (some m, p1.imag - m * p1.real)

/-- Faithful embedding of `_get_slope_intersect`, including the
`assert abs(b1 - b2) < eps` sanity check (an `AssertionError` becomes
`PErr.assertIntercept`). -/
def get_slope_intersect (p1 p2 : Pt) : Except PErr (Option ℚ × ℚ) :=
  if |p1.real - p2.real| < eps then .ok (none, p1.real)
  else
    let m := (p2.imag - p1.imag) / (p2.real - p1.real)
    let b1 := p1.imag - m * p1.real
    let b2 := p2.imag - m * p2.real
    if |b1 - b2| < eps then .ok (some m, b1) else .error .assertIntercept

/-- Over exact arithmetic the two intercepts `b1`, `b2` computed by
`_get_slope_intersect` for a non-vertical pair of points are equal. -/
theorem intercepts_eq (p1 p2 : Pt) (h : ¬ |p1.real - p2.real| < eps) :
    p1.imag - (p2.imag - p1.imag) / (p2.real - p1.real) * p1.real =
    p2.imag - (p2.imag - p1.imag) / (p2.real - p1.real) * p2.real := by
  have hne : p2.real - p1.real ≠ 0 := by
    intro h0
    apply h
    have he : p1.real = p2.real := by linarith [sub_eq_zero.mp h0]
    simp [he, eps]
  field_simp
  ring

/-- Over exact arithmetic the two intercepts of `_get_slope_intersect`
coincide, so the assert never fires and the `Except` version always returns
the `slope_intersect` value. -/
theorem get_slope_intersect_eq_ok (p1 p2 : Pt) :
    get_slope_intersect p1 p2 = .ok (slope_intersect p1 p2) := by
  unfold get_slope_intersect slope_intersect
  by_cases h : |p1.real - p2.real| < eps
  · simp [h]
  · have hb := intercepts_eq p1 p2 h
    simp only [if_neg h]
    rw [if_pos]
    rw [sub_eq_zero.mpr hb]
    simp [eps]

/-- The slope comparison of `_lines_are_collinear`: both `None`, or both
defined and within `eps`. -/
def sameSlope : Option ℚ → Option ℚ → Prop
  | none, none => True
  | some m1, some m2 => |m1 - m2| < eps
  | _, _ => False

instance : (o1 o2 : Option ℚ) → Decidable (sameSlope o1 o2)
  | none, none => .isTrue trivial
  | some _, some _ => inferInstanceAs (Decidable (_ < _))
  | none, some _ => .isFalse id
  | some _, none => .isFalse id

/-- A drawing primitive of a parsed path: `Move`, `Line` (straight segment)
or `Close`.  In `svg.path` all three carry `start`/`end` points. -/
inductive Prim where
  | move (start stop : Pt)
  | line (start stop : Pt)
  | close (start stop : Pt)
deriving DecidableEq, Repr

/-- The `start` attribute of a primitive. -/
def Prim.start : Prim → Pt
  | .move s _ => s
  | .line s _ => s
  | .close s _ => s

/-- The `end` attribute of a primitive (`end` is a Lean keyword). -/
def Prim.end_ : Prim → Pt
  | .move _ e => e
  | .line _ e => e
  | .close _ e => e

/-- `isinstance(line, Move)`. -/
def Prim.isMove : Prim → Bool
  | .move _ _ => true
  | _ => false

/-- In-place endpoint mutation `line.start = s; line.end = e`: the object
keeps its class. -/
def Prim.setEnds : Prim → Pt → Pt → Prim
  | .move _ _, s, e => .move s e
  | .line _ _, s, e => .line s e
  | .close _ _, s, e => .close s e

/-- Squared length of a primitive's chord (`Line.length()` squared). -/
def Prim.lengthSq (p : Prim) : ℚ := dist_sq p.start p.end_

/-- `_lines_are_collinear(line1, line2)` (using the assert-free value of
`_get_slope_intersect`, justified by `get_slope_intersect_eq_ok`). -/
def lines_are_collinear (line1 line2 : Prim) : Prop :=
  let eq1 := slope_intersect line1.start line1.end_
  let eq2 := slope_intersect line2.start line2.end_
  sameSlope eq1.1 eq2.1 ∧ |eq1.2 - eq2.2| < eps

instance (line1 line2 : Prim) : Decidable (lines_are_collinear line1 line2) :=
  inferInstanceAs (Decidable (_ ∧ _))

/-- `min(line.start.real, line.end.real)` — the `l?x1` values. -/
abbrev minX (p : Prim) : ℚ := min p.start.real p.end_.real

/-- `max(line.start.real, line.end.real)` — the `l?x2` values. -/
abbrev maxX (p : Prim) : ℚ := max p.start.real p.end_.real

/-- `min(line.start.imag, line.end.imag)` — the `l?y1` values. -/
abbrev minY (p : Prim) : ℚ := min p.start.imag p.end_.imag

/-- `max(line.start.imag, line.end.imag)` — the `l?y2` values. -/
abbrev maxY (p : Prim) : ℚ := max p.start.imag p.end_.imag

/-- First branch condition of `_pairwise_overlap_check`: line 1 is bigger,
fully contains line 2 (bounding boxes, tolerance `eps`). -/
abbrev contains12 (line1 line2 : Prim) : Prop :=
  minX line1 ≤ minX line2 + eps ∧ maxX line1 + eps ≥ maxX line2 ∧
  minY line1 ≤ minY line2 + eps ∧ maxY line1 + eps ≥ maxY line2

/-- Second branch condition: line 2 is bigger, fully contains line 1. -/
abbrev contains21 (line1 line2 : Prim) : Prop :=
  minX line1 + eps ≥ minX line2 ∧ maxX line1 ≤ maxX line2 + eps ∧
  minY line1 + eps ≥ minY line2 ∧ maxY line1 ≤ maxY line2 + eps

/-- The four-way disjunction detecting a non-containment overlap
(one bounding-box corner value of line 2 inside line 1's span, inclusive in
exactly one dimension and strict in the other). -/
abbrev overlapCond (line1 line2 : Prim) : Prop :=
  (minX line1 ≤ minX line2 + eps ∧ minX line2 ≤ maxX line1 + eps ∧
    minY line1 + eps < minY line2 ∧ minY line2 + eps < maxY line1) ∨
  (minX line1 + eps < minX line2 ∧ minX line2 + eps < maxX line1 ∧
    minY line1 ≤ minY line2 + eps ∧ minY line2 ≤ maxY line1 + eps) ∨
  (minX line1 ≤ maxX line2 + eps ∧ maxX line2 ≤ maxX line1 + eps ∧
    minY line1 + eps < maxY line2 ∧ maxY line2 + eps < maxY line1) ∨
  (minX line1 + eps < maxX line2 ∧ maxX line2 + eps < maxX line1 ∧
    minY line1 ≤ maxY line2 + eps ∧ maxY line2 ≤ maxY line1 + eps)

/-- Decidable embedding of the length assertion
`lineA.length() + eps >= lineB.length()` on squared lengths `a`, `b`, i.e.
`Real.sqrt b ≤ Real.sqrt a + eps` (see `lenLeLenAddEps_iff`). -/
abbrev lenLeLenAddEps (b a : ℚ) : Prop :=
  b - a - eps ^ 2 ≤ 0 ∨ (b - a - eps ^ 2) ^ 2 ≤ 4 * eps ^ 2 * a

/-- All unordered index pairs `x < y` of a point list, in the order the
source's double loop over `points` enumerates them. -/
def allPairs : List Pt → List (Pt × Pt)
  | [] => []
  | p :: rest => rest.map (fun q => (p, q)) ++ allPairs rest

/-- The source's selection of the longest candidate line: start from
`longest_line = line1` and replace whenever a strictly longer candidate
appears (`new_line.length() > longest_line.length()`, compared on squared
lengths). -/
def selectLongest : Pt × Pt → List (Pt × Pt) → Pt × Pt
  | best, [] => best
  | best, c :: rest =>
      selectLongest (if dist_sq best.1 best.2 < dist_sq c.1 c.2 then c else best) rest

/-- The merge computation of the overlap branch: collect the four endpoints
`[line1.start, line1.end, line2.start, line2.end]`, try all pairs, and
select the pair producing the longest length (starting from `line1`). -/
def mergeBest (line1 line2 : Prim) : Pt × Pt :=
  selectLongest (line1.start, line1.end_)
    (allPairs [line1.start, line1.end_, line2.start, line2.end_])

/-- Python's `round` (round half to even) of a rational. -/
def roundHalfEven (q : ℚ) : ℤ :=
  let f : ℤ := ⌊q⌋
  let r : ℚ := q - f
  if r < 1 / 2 then f
  else if 1 / 2 < r then f + 1
  else if f % 2 = 0 then f else f + 1

/-- `round(q, ndigits=3)`. -/
def round3 (q : ℚ) : ℚ := (roundHalfEven (1000 * q) : ℚ) / 1000

/-- Bucket key: `(slope, intersect)` rounded to three digits, slope `none`
for vertical lines. -/
abbrev BKey := Option ℚ × ℚ

/-- A bucket record `{'overall_index', 'path_index', 'line_index', 'line'}`. -/
structure BRec where
  overall_index : ℕ
  path_index : ℕ
  line_index : ℕ
  line : Prim
deriving DecidableEq, Repr

/-- An entry of `to_remove`/`to_update`: `(path_index, line_index, line)`. -/
abbrev Entry := ℕ × ℕ × Prim

/-- A Python dict keyed by `overall_index` (insertion-ordered). -/
abbrev DMap := List (ℕ × Entry)

/-- Dict lookup `d[k]`. -/
def dget : DMap → ℕ → Option Entry
  | [], _ => none
  | (k2, v) :: rest, k => if k2 = k then some v else dget rest k

/-- Dict membership `k in d`. -/
abbrev dmem (m : DMap) (k : ℕ) : Prop := (dget m k).isSome = true

/-- Dict assignment `d[k] = v`: overwrite in place, or append a fresh key. -/
def dinsert : DMap → ℕ → Entry → DMap
  | [], k, v => [(k, v)]
  | (k2, v2) :: rest, k, v =>
      if k2 = k then (k2, v) :: rest else (k2, v2) :: dinsert rest k v

/-- Dict deletion `del d[k]`. -/
def derase : DMap → ℕ → DMap
  | [], _ => []
  | (k2, v2) :: rest, k => if k2 = k then rest else (k2, v2) :: derase rest k

/-- The value list `[d[k][2] for k in d]` (insertion order). -/
def dvalues (m : DMap) : List Prim := m.map (fun kv => kv.2.2.2)

/-- Result of the inner `j` loop of `_pairwise_overlap_check`: either the
early `return True` of the merge branch (with the mutated bucket list and
both updated dicts) or the loop ran to completion. -/
inductive JRes where
  | merged (lines : List BRec) (tu tr : DMap)
  | done (tu tr : DMap)
deriving DecidableEq, Repr

/-- The inner `for j in range(i + 1, len(lines))` loop of
`_pairwise_overlap_check`; `ri` is the (fixed) record `lines[i]`, `js` the
remaining values of `j`.  Mirrors the source branch for branch:
skip removed `j`; full containment either way (with the length assertion)
records a removal and continues; the overlap branch records the removal of
line `i` (clearing a stale `to_update` entry), mutates line `j` to the
longest of the six candidate endpoint pairs, records it in `to_update`, and
returns `True` immediately. -/
def jloop (lines : List BRec) (ri : BRec) : List ℕ → DMap → DMap → Except PErr JRes
  | [], tu, tr => .ok (.done tu tr)
  | j :: rest, tu, tr =>
    match lines[j]? with
    | none => jloop lines ri rest tu tr
    | some rj =>
      if dmem tr rj.overall_index then jloop lines ri rest tu tr
      else
        let line1 := ri.line
        let line2 := rj.line
        if lines_are_collinear line1 line2 then
          if contains12 line1 line2 then
            if lenLeLenAddEps line2.lengthSq line1.lengthSq then
              jloop lines ri rest tu
                (dinsert tr rj.overall_index (rj.path_index, rj.line_index, line2))
            else .error .assertContain
          else if contains21 line1 line2 then
            if lenLeLenAddEps line1.lengthSq line2.lengthSq then
              jloop lines ri rest tu
                (dinsert tr ri.overall_index (ri.path_index, ri.line_index, line1))
            else .error .assertContain
          else if overlapCond line1 line2 then
            let tr2 := dinsert tr ri.overall_index (ri.path_index, ri.line_index, line1)
            let tu2 := if dmem tu ri.overall_index then derase tu ri.overall_index else tu
            let best := mergeBest line1 line2
            let newLine2 := line2.setEnds best.1 best.2
            .ok (.merged (lines.set j { rj with line := newLine2 })
              (dinsert tu2 rj.overall_index (rj.path_index, rj.line_index, newLine2)) tr2)
          else jloop lines ri rest tu tr
        else jloop lines ri rest tu tr

/-- The outer `for i in range(len(lines))` loop of
`_pairwise_overlap_check`: skip an `i` already removed (checked once, at
loop entry), otherwise run the `j` loop; a merge propagates the early
`return True`. -/
def iloop (lines : List BRec) : List ℕ → DMap → DMap → Except PErr (Bool × List BRec × DMap × DMap)
  | [], tu, tr => .ok (false, lines, tu, tr)
  | i :: rest, tu, tr =>
    match lines[i]? with
    | none => iloop lines rest tu tr
    | some ri =>
      if dmem tr ri.overall_index then iloop lines rest tu tr
      else
        match jloop lines ri (List.range' (i + 1) (lines.length - (i + 1))) tu tr with
        | .error e => .error e
        | .ok (.merged lines2 tu2 tr2) => .ok (true, lines2, tu2, tr2)
        | .ok (.done tu2 tr2) => iloop lines rest tu2 tr2

/-- `SvgProcessor._pairwise_overlap_check(lines, to_update, to_remove)`.
Returns the `changed` flag together with the (mutated) bucket list and
dicts. -/
def pairwise_overlap_check (lines : List BRec) (tu tr : DMap) :
    Except PErr (Bool × List BRec × DMap × DMap) :=
  iloop lines (List.range' 0 lines.length) tu tr

/-- The `for i in range(20): ... else: raise` retry loop run for one bucket:
re-run `_pairwise_overlap_check` while it reports a change; exhausting the
fuel raises the `Exceeded the max number of passes` exception. -/
def runPasses : ℕ → List BRec → DMap → DMap → Except PErr (List BRec × DMap × DMap)
  | 0, _, _, _ => .error .exceededMaxPasses
  | n + 1, lines, tu, tr =>
    match pairwise_overlap_check lines tu tr with
    | .error e => .error e
    | .ok (changed, lines2, tu2, tr2) =>
      if changed then runPasses n lines2 tu2 tr2 else .ok (lines2, tu2, tr2)

/-- The bucket key of a primitive: rounded slope (when defined) and rounded
intersect. -/
def bucketKey (p : Prim) : BKey :=
  let si := slope_intersect p.start p.end_
  (si.1.map round3, round3 si.2)

/-- `defaultdict(list)` append: `d[key].append(r)` (fresh keys at the
end, insertion order preserved). -/
def bucketAppend : List (BKey × List BRec) → BKey → BRec → List (BKey × List BRec)
  | [], k, r => [(k, [r])]
  | (k2, rs) :: rest, k, r =>
      if k2 = k then (k2, rs ++ [r]) :: rest else (k2, rs) :: bucketAppend rest k r

/-- The bucketing scan over one path: every primitive advances
`overall_index`; non-`Move` primitives are appended to their key's bucket. -/
def scanPath (path_index : ℕ) : ℕ → ℕ → List Prim → List (BKey × List BRec) →
    List (BKey × List BRec) × ℕ
  | _, overall, [], bs => (bs, overall)
  | line_index, overall, p :: rest, bs =>
    let bs2 := if p.isMove then bs
      else bucketAppend bs (bucketKey p) ⟨overall, path_index, line_index, p⟩
    scanPath path_index (line_index + 1) (overall + 1) rest bs2

/-- The bucketing scan over all paths. -/
def scanPaths : ℕ → ℕ → List (List Prim) → List (BKey × List BRec) → List (BKey × List BRec)
  | _, _, [], bs => bs
  | path_index, overall, ps :: rest, bs =>
    let st := scanPath path_index 0 overall ps bs
    scanPaths (path_index + 1) st.2 rest st.1

/-- `lines_bucketed_by_slope_intersect` built by the first loop of
`remove_redundant_lines`. -/
def bucketize (paths : List (List Prim)) : List (BKey × List BRec) :=
  scanPaths 0 0 paths []

/-- The per-bucket fixed-point loop of `remove_redundant_lines`, threading
`to_update`/`to_remove` across buckets in insertion order. -/
def processBuckets : List (BKey × List BRec) → DMap → DMap → Except PErr (DMap × DMap)
  | [], tu, tr => .ok (tu, tr)
  | (_, lines) :: rest, tu, tr =>
    match runPasses 20 lines tu tr with
    | .error e => .error e
    | .ok (_, tu2, tr2) => processBuckets rest tu2 tr2

/-- Outcome of the reconstruction loop body for one primitive: dropped
(`overall_index` in `to_remove`) or appended (replacement from `to_update`,
a `Close` rewritten as a `Line`, or the primitive itself). -/
inductive FilterOut where
  | removedOut (orig : Prim)
  | keptOut (outPrim : Prim)
deriving DecidableEq, Repr

/-- The body of the reconstruction loop of `remove_redundant_lines` for one
primitive at `overall_index` `i`, including its four `assert` statements on
the recorded `path_index`/`line_index`. -/
def filterStep (tr tu : DMap) (i path_index line_index : ℕ) (p : Prim) :
    Except PErr FilterOut :=
  match dget tr i with
  | some e =>
      if e.1 = path_index then
        if e.2.1 = line_index then .ok (.removedOut p) else .error .assertRecon
      else .error .assertRecon
  | none =>
    match dget tu i with
    | some e =>
        if e.1 = path_index then
          if e.2.1 = line_index then .ok (.keptOut e.2.2) else .error .assertRecon
        else .error .assertRecon
    | none =>
      match p with
      | .close s e => .ok (.keptOut (.line s e))
      | _ => .ok (.keptOut p)

/-- Counters threaded through reconstruction: the shared `i` counter, the
`removed`/`kept` counts and the list of dropped original primitives (whose
lengths make up `removed_length`; `kept_length` is the total length of the
emitted paths). -/
structure ReconSt where
  i : ℕ
  removedCount : ℕ
  keptCount : ℕ
  removedPrims : List Prim
deriving DecidableEq, Repr

/-- Reconstruction of one path (`filtered_path`). -/
def reconPath (tr tu : DMap) (path_index : ℕ) : ℕ → ReconSt → List Prim → List Prim →
    Except PErr (ReconSt × List Prim)
  | _, st, acc, [] => .ok (st, acc)
  | line_index, st, acc, p :: rest =>
    match filterStep tr tu st.i path_index line_index p with
    | .error e => .error e
    | .ok (.removedOut orig) =>
        reconPath tr tu path_index (line_index + 1)
          { st with i := st.i + 1, removedCount := st.removedCount + 1,
                    removedPrims := st.removedPrims ++ [orig] } acc rest
    | .ok (.keptOut q) =>
        reconPath tr tu path_index (line_index + 1)
          { st with i := st.i + 1, keptCount := st.keptCount + 1 } (acc ++ [q]) rest

/-- Reconstruction of all paths, in order. -/
def reconPaths (tr tu : DMap) : ℕ → ReconSt → List (List Prim) → List (List Prim) →
    Except PErr (ReconSt × List (List Prim))
  | _, st, accPaths, [] => .ok (st, accPaths)
  | path_index, st, accPaths, ps :: rest =>
    match reconPath tr tu path_index 0 st [] ps with
    | .error e => .error e
    | .ok (st2, filtered) => reconPaths tr tu (path_index + 1) st2 (accPaths ++ [filtered]) rest

/-- The full effect of `remove_redundant_lines`:
* `outPaths` — the reconstructed primitive sequences written back into each
  path's `d` attribute;
* `removedCount`/`keptCount`/`removedPrims` — the printed statistics
  (`removed_length` is the total length of `removedPrims`, `kept_length`
  the total length of `outPaths`);
* `ret` — the pair of lists the method actually returns;
* `toRemove`/`toUpdate` — the final dicts. -/
structure ReduceResult where
  toUpdate : DMap
  toRemove : DMap
  outPaths : List (List Prim)
  removedCount : ℕ
  keptCount : ℕ
  removedPrims : List Prim
  ret : List Prim × List Prim
deriving DecidableEq, Repr

/-- `SvgProcessor.remove_redundant_lines`, as a pure function from the
parsed paths to its full effect. -/
def remove_redundant_lines (paths : List (List Prim)) : Except PErr ReduceResult :=
  match processBuckets (bucketize paths) [] [] with
  | .error e => .error e
  | .ok (tu, tr) =>
    match reconPaths tr tu 0 ⟨0, 0, 0, []⟩ [] paths with
    | .error e => .error e
    | .ok (st, outs) =>
      .ok { toUpdate := tu, toRemove := tr, outPaths := outs,
            removedCount := st.removedCount, keptCount := st.keptCount,
            removedPrims := st.removedPrims,
            ret := (dvalues tr, dvalues tu) }

/-! ### Concrete inputs and results used in witnesses and counterexamples -/

/-- Result of reducing the single segment `(0,0)-(1,0)` (nothing happens). -/
def resSingle : ReduceResult :=
  { toUpdate := [], toRemove := [], outPaths := [[Prim.line ⟨0, 0⟩ ⟨1, 0⟩]],
    removedCount := 0, keptCount := 1, removedPrims := [], ret := ([], []) }

/-- Result of reducing `(0,0)-(1,0)` together with the non-collinear
`(5,5)-(6,6)` (nothing happens; same returned pair as `resSingle`). -/
def resTwoKept : ReduceResult :=
  { toUpdate := [], toRemove := [],
    outPaths := [[Prim.line ⟨0, 0⟩ ⟨1, 0⟩], [Prim.line ⟨5, 5⟩ ⟨6, 6⟩]],
    removedCount := 0, keptCount := 2, removedPrims := [], ret := ([], []) }

/-- Result of reducing the bucket `(0,0)-(5,0)`, `(3,0)-(10,0)`,
`(-10,0)-(20,0)`: the second segment is first merged and then removed by the
containment branch, ending up in both dicts. -/
def resBothDicts : ReduceResult :=
  { toUpdate := [(1, (0, 1, .line ⟨0, 0⟩ ⟨10, 0⟩))],
    toRemove := [(0, (0, 0, .line ⟨0, 0⟩ ⟨5, 0⟩)), (1, (0, 1, .line ⟨0, 0⟩ ⟨10, 0⟩))],
    outPaths := [[.line ⟨-10, 0⟩ ⟨20, 0⟩]],
    removedCount := 2, keptCount := 1,
    removedPrims := [.line ⟨0, 0⟩ ⟨5, 0⟩, .line ⟨3, 0⟩ ⟨10, 0⟩],
    ret := ([.line ⟨0, 0⟩ ⟨5, 0⟩, .line ⟨0, 0⟩ ⟨10, 0⟩], [.line ⟨0, 0⟩ ⟨10, 0⟩]) }

/-- Result of reducing an input whose `Close` is collinear with and
contained in a segment of another path: the `Close` (overall index 3) is
removed. -/
def resCloseRemoved : ReduceResult :=
  { toUpdate := [],
    toRemove := [(2, (1, 1, .line ⟨6, 0⟩ ⟨2, 0⟩)), (3, (1, 2, .close ⟨2, 0⟩ ⟨6, 0⟩))],
    outPaths := [[.line ⟨0, 0⟩ ⟨10, 0⟩], [.move ⟨6, 0⟩ ⟨6, 0⟩]],
    removedCount := 2, keptCount := 2,
    removedPrims := [.line ⟨6, 0⟩ ⟨2, 0⟩, .close ⟨2, 0⟩ ⟨6, 0⟩],
    ret := ([.line ⟨6, 0⟩ ⟨2, 0⟩, .close ⟨2, 0⟩ ⟨6, 0⟩], []) }

/-- First-run result of the non-idempotence input: the two near-vertical
segments merge into `(0,0)-(13/10000,12)`, whose rounded key is no longer
vertical; the third segment (exactly on the line of rounded slope
`9230.769`) is never compared with it. -/
def resRun1 : ReduceResult :=
  { toUpdate := [(1, (0, 1, .line ⟨0, 0⟩ ⟨13/10000, 12⟩))],
    toRemove := [(0, (0, 0, .line ⟨0, 0⟩ ⟨9/10000, 10⟩))],
    outPaths := [[.line ⟨0, 0⟩ ⟨13/10000, 12⟩,
      .line ⟨13/20000, 119999997/20000000⟩ ⟨13/5000, 119999997/5000000⟩]],
    removedCount := 1, keptCount := 2,
    removedPrims := [.line ⟨0, 0⟩ ⟨9/10000, 10⟩],
    ret := ([.line ⟨0, 0⟩ ⟨9/10000, 10⟩], [.line ⟨0, 0⟩ ⟨13/10000, 12⟩]) }

/-- Second-run result on the reconstructed output of `resRun1`: one more
removal and one more merge instead of none. -/
def resRun2 : ReduceResult :=
  { toUpdate := [(1, (0, 1, .line ⟨0, 0⟩ ⟨13/5000, 119999997/5000000⟩))],
    toRemove := [(0, (0, 0, .line ⟨0, 0⟩ ⟨13/10000, 12⟩))],
    outPaths := [[.line ⟨0, 0⟩ ⟨13/5000, 119999997/5000000⟩]],
    removedCount := 1, keptCount := 1,
    removedPrims := [.line ⟨0, 0⟩ ⟨13/10000, 12⟩],
    ret := ([.line ⟨0, 0⟩ ⟨13/10000, 12⟩],
      [.line ⟨0, 0⟩ ⟨13/5000, 119999997/5000000⟩]) }

/-! ### Basic lemmas about the embedded operations -/

theorem dist_sq_nonneg (p q : Pt) : 0 ≤ dist_sq p q := by
  unfold dist_sq
  positivity

theorem dist_sq_comm (p q : Pt) : dist_sq p q = dist_sq q p := by
  unfold dist_sq
  ring

theorem dist_sq_self (p : Pt) : dist_sq p p = 0 := by
  unfold dist_sq
  ring

theorem eps_pos : 0 < eps := by norm_num [eps]

theorem dget_dinsert_self (m : DMap) (k : ℕ) (v : Entry) :
    dget (dinsert m k v) k = some v := by
  induction m with
  | nil => simp [dinsert, dget]
  | cons kv rest ih =>
    obtain ⟨k2, v2⟩ := kv
    by_cases h : k2 = k
    · simp [dinsert, dget, h]
    · simp [dinsert, dget, h, ih]

theorem dget_dinsert_ne (m : DMap) (k k2 : ℕ) (v : Entry) (h : k ≠ k2) :
    dget (dinsert m k v) k2 = dget m k2 := by
  induction m with
  | nil => simp [dinsert, dget, h]
  | cons kv rest ih =>
    obtain ⟨k3, v3⟩ := kv
    by_cases h3 : k3 = k
    · subst h3
      simp [dinsert, dget, h]
    · simp only [dinsert, if_neg h3]
      by_cases h4 : k3 = k2 <;> simp [dget, h4, ih]

theorem dget_eq_none_of_not_mem (m : DMap) (k : ℕ) (h : k ∉ m.map Prod.fst) :
    dget m k = none := by
  induction m with
  | nil => simp [dget]
  | cons kv rest ih =>
    simp only [List.map_cons, List.mem_cons, not_or] at h
    have : kv.1 ≠ k := fun he => h.1 he.symm
    obtain ⟨k2, v2⟩ := kv
    simp only [dget, if_neg this]
    exact ih h.2

theorem dget_derase_self (m : DMap) (k : ℕ) (h : (m.map Prod.fst).Nodup) :
    dget (derase m k) k = none := by
  induction m with
  | nil => simp [derase, dget]
  | cons kv rest ih =>
    obtain ⟨k2, v2⟩ := kv
    simp only [List.map_cons, List.nodup_cons] at h
    by_cases he : k2 = k
    · subst he
      simp only [derase, if_pos rfl]
      exact dget_eq_none_of_not_mem rest k2 h.1
    · simp only [derase, if_neg he, dget, if_neg he]
      exact ih h.2

/-- Strict comparison of Euclidean lengths coincides with strict comparison
of the squared lengths used by the embedding. -/
theorem sqrt_dist_sq_lt_iff (a b : ℚ) (ha : 0 ≤ a) :
    Real.sqrt (a : ℝ) < Real.sqrt (b : ℝ) ↔ a < b := by
  rw [Real.sqrt_lt_sqrt_iff (by exact_mod_cast ha)]
  exact_mod_cast Iff.rfl

/-- The decidable condition `lenLeLenAddEps b a` is exactly the assertion
`Real.sqrt b ≤ Real.sqrt a + eps` of the source
(`lineA.length() + eps >= lineB.length()` with `a`, `b` the squared
lengths). -/
theorem lenLeLenAddEps_iff (a b : ℚ) (ha : 0 ≤ a) :
    lenLeLenAddEps b a ↔ Real.sqrt (b : ℝ) ≤ Real.sqrt (a : ℝ) + (eps : ℝ) := by
  have ha' : (0 : ℝ) ≤ (a : ℝ) := by exact_mod_cast ha
  have hsa : (0 : ℝ) ≤ Real.sqrt (a : ℝ) := Real.sqrt_nonneg _
  have heps : (0 : ℝ) < (eps : ℝ) := by
    have := eps_pos
    exact_mod_cast this
  have hy : (0 : ℝ) ≤ Real.sqrt (a : ℝ) + (eps : ℝ) := by linarith
  have hsq : (Real.sqrt (a : ℝ) + (eps : ℝ)) ^ 2 =
      (a : ℝ) + 2 * (eps : ℝ) * Real.sqrt (a : ℝ) + (eps : ℝ) ^ 2 := by
    have := Real.sq_sqrt ha'
    ring_nf
    nlinarith [Real.sq_sqrt ha']
  rw [Real.sqrt_le_iff]
  constructor
  · rintro (hle | hle)
    · refine ⟨hy, ?_⟩
      rw [hsq]
      have hD : ((b : ℝ) - a - (eps : ℝ) ^ 2) ≤ 0 := by exact_mod_cast hle
      nlinarith
    · refine ⟨hy, ?_⟩
      rw [hsq]
      have hD : ((b : ℝ) - a - (eps : ℝ) ^ 2) ^ 2 ≤ 4 * (eps : ℝ) ^ 2 * a := by
        exact_mod_cast hle
      have h4 : 4 * (eps : ℝ) ^ 2 * a = (2 * (eps : ℝ) * Real.sqrt (a : ℝ)) ^ 2 := by
        have := Real.sq_sqrt ha'
        nlinarith
      have habs : ((b : ℝ) - a - (eps : ℝ) ^ 2) ≤ 2 * (eps : ℝ) * Real.sqrt (a : ℝ) := by
        have h2 : (0 : ℝ) ≤ 2 * (eps : ℝ) * Real.sqrt (a : ℝ) := by positivity
        nlinarith
      linarith
  · rintro ⟨-, hle⟩
    rw [hsq] at hle
    have hD : ((b : ℝ) - a - (eps : ℝ) ^ 2) ≤ 2 * (eps : ℝ) * Real.sqrt (a : ℝ) := by
      linarith
    by_cases h0 : b - a - eps ^ 2 ≤ 0
    · exact Or.inl h0
    · right
      push_neg at h0
      have h0' : (0 : ℝ) < ((b : ℝ) - a - (eps : ℝ) ^ 2) := by exact_mod_cast h0
      have : ((b : ℝ) - a - (eps : ℝ) ^ 2) ^ 2 ≤ (2 * (eps : ℝ) * Real.sqrt (a : ℝ)) ^ 2 := by
        nlinarith
      have h4 : (2 * (eps : ℝ) * Real.sqrt (a : ℝ)) ^ 2 = 4 * (eps : ℝ) ^ 2 * a := by
        have := Real.sq_sqrt ha'
        nlinarith
      rw [h4] at this
      exact_mod_cast this

/-- `selectLongest` returns either its seed or a list element, of maximal
squared length among the seed and the candidates. -/
theorem selectLongest_spec (l : List (Pt × Pt)) (best : Pt × Pt) :
    (selectLongest best l = best ∨ selectLongest best l ∈ l) ∧
    dist_sq best.1 best.2 ≤
      dist_sq (selectLongest best l).1 (selectLongest best l).2 ∧
    ∀ c ∈ l, dist_sq c.1 c.2 ≤
      dist_sq (selectLongest best l).1 (selectLongest best l).2 := by
  induction l generalizing best with
  | nil => simp [selectLongest]
  | cons c rest ih =>
    simp only [selectLongest]
    by_cases h : dist_sq best.1 best.2 < dist_sq c.1 c.2
    · rw [if_pos h]
      obtain ⟨hmem, hle, hall⟩ := ih c
      refine ⟨?_, ?_, ?_⟩
      · rcases hmem with h1 | h1
        · exact Or.inr (by simp [h1])
        · exact Or.inr (List.mem_cons_of_mem _ h1)
      · exact le_trans (le_of_lt h) hle
      · intro d hd
        rcases List.mem_cons.mp hd with h1 | h1
        · subst h1
          exact hle
        · exact hall d h1
    · rw [if_neg h]
      obtain ⟨hmem, hle, hall⟩ := ih best
      push_neg at h
      refine ⟨?_, hle, ?_⟩
      · rcases hmem with h1 | h1
        · exact Or.inl h1
        · exact Or.inr (List.mem_cons_of_mem _ h1)
      · intro d hd
        rcases List.mem_cons.mp hd with h1 | h1
        · subst h1
          exact le_trans h hle
        · exact hall d h1

/-- `allPairs` of the four merge candidate points is exactly the six pairs
the source's double loop enumerates. -/
theorem allPairs_four (a b c d : Pt) :
    allPairs [a, b, c, d] = [(a, b), (a, c), (a, d), (b, c), (b, d), (c, d)] := by
  simp [allPairs]

/-- The merged segment selected in the overlap branch has maximal squared
length among all (ordered or unordered) pairs of the four endpoints, and
its endpoints are among those four points. -/
theorem selectLongest_allPairs_max (a b c d : Pt) :
    ((selectLongest (a, b) (allPairs [a, b, c, d])).1 ∈ [a, b, c, d] ∧
     (selectLongest (a, b) (allPairs [a, b, c, d])).2 ∈ [a, b, c, d]) ∧
    ∀ p ∈ [a, b, c, d], ∀ q ∈ [a, b, c, d],
      dist_sq p q ≤
        dist_sq (selectLongest (a, b) (allPairs [a, b, c, d])).1
          (selectLongest (a, b) (allPairs [a, b, c, d])).2 := by
  rw [allPairs_four]
  obtain ⟨hmem, hseed, hall⟩ :=
    selectLongest_spec [(a, b), (a, c), (a, d), (b, c), (b, d), (c, d)] (a, b)
  set r := selectLongest (a, b) [(a, b), (a, c), (a, d), (b, c), (b, d), (c, d)] with hr
  have hr1 : r.1 ∈ [a, b, c, d] ∧ r.2 ∈ [a, b, c, d] := by
    rcases hmem with h1 | h1
    · rw [h1]
      simp
    · simp only [List.mem_cons, List.not_mem_nil, or_false] at h1
      rcases h1 with h | h | h | h | h | h <;> rw [h] <;> simp
  have hub : ∀ p q : Pt, (p, q) ∈ [(a, b), (a, c), (a, d), (b, c), (b, d), (c, d)] →
      dist_sq p q ≤ dist_sq r.1 r.2 := fun p q hpq => hall (p, q) hpq
  have hub2 : ∀ p q : Pt,
      ((p, q) ∈ [(a, b), (a, c), (a, d), (b, c), (b, d), (c, d)] ∨
       (q, p) ∈ [(a, b), (a, c), (a, d), (b, c), (b, d), (c, d)]) →
      dist_sq p q ≤ dist_sq r.1 r.2 := by
    rintro p q (h | h)
    · exact hub _ _ h
    · rw [dist_sq_comm]
      exact hub _ _ h
  have hrnn : 0 ≤ dist_sq r.1 r.2 := dist_sq_nonneg _ _
  refine ⟨hr1, ?_⟩
  intro p hp q hq
  simp only [List.mem_cons, List.not_mem_nil, or_false] at hp hq
  rcases hp with h | h | h | h <;> subst h <;>
    rcases hq with h | h | h | h <;> subst h <;>
    first
      | (rw [dist_sq_self]; exact hrnn)
      | (apply hub2; simp)

/-- The merged segment of the overlap branch: endpoints drawn from the four
candidate points, of maximal squared length among all their pairs. -/
theorem mergeBest_spec (line1 line2 : Prim) :
    ((mergeBest line1 line2).1 ∈ [line1.start, line1.end_, line2.start, line2.end_] ∧
     (mergeBest line1 line2).2 ∈ [line1.start, line1.end_, line2.start, line2.end_]) ∧
    ∀ p ∈ [line1.start, line1.end_, line2.start, line2.end_],
      ∀ q ∈ [line1.start, line1.end_, line2.start, line2.end_],
        dist_sq p q ≤ dist_sq (mergeBest line1 line2).1 (mergeBest line1 line2).2 := by
  unfold mergeBest
  exact selectLongest_allPairs_max _ _ _ _

/-- Unfolds one step of the inner loop when the pair `(ri, lines[j])` lands
in the overlap ("partial overlap") branch: the early `return True` with
line `i` removed (stale update entry cleared), line `j` mutated to the
merge of the pair and recorded in `to_update`. -/
theorem jloop_cons_merge (lines : List BRec) (ri rj : BRec) (j : ℕ) (rest : List ℕ)
    (tu tr : DMap)
    (hj : lines[j]? = some rj)
    (hnr : ¬ dmem tr rj.overall_index)
    (hcol : lines_are_collinear ri.line rj.line)
    (hc12 : ¬ contains12 ri.line rj.line)
    (hc21 : ¬ contains21 ri.line rj.line)
    (hov : overlapCond ri.line rj.line) :
    jloop lines ri (j :: rest) tu tr =
      (let m := mergeBest ri.line rj.line
       let nl := rj.line.setEnds m.1 m.2
       .ok (.merged (lines.set j { rj with line := nl })
         (dinsert (if dmem tu ri.overall_index then derase tu ri.overall_index else tu)
           rj.overall_index (rj.path_index, rj.line_index, nl))
         (dinsert tr ri.overall_index (ri.path_index, ri.line_index, ri.line)))) := by
  simp only [jloop]
  rw [hj]
  simp only [if_neg hnr, if_pos hcol, if_neg hc12, if_neg hc21, if_pos hov]

theorem Prim.setEnds_start (p : Prim) (s e : Pt) : (p.setEnds s e).start = s := by
  cases p <;> rfl

theorem Prim.setEnds_end (p : Prim) (s e : Pt) : (p.setEnds s e).end_ = e := by
  cases p <;> rfl

/-! ### Claim theorems -/

/-- C7: `_get_slope_intersect(p1, p2)` returns `(None, p1.x)` when
`|p1.x - p2.x| < eps` (vertical); otherwise it returns `(m, b)` with
`m = (p2.y - p1.y) / (p2.x - p1.x)` and `b = p1.y - m * p1.x`; and it
raises `GeometryAssertionError` exactly when the two computed intercepts
differ by at least `eps` (over exact arithmetic both sides of this
equivalence are false: the intercepts always agree). -/
theorem C7_slope_intersect_characterization (p1 p2 : Pt) :
    (|p1.real - p2.real| < eps → get_slope_intersect p1 p2 = .ok (none, p1.real)) ∧
    (¬ |p1.real - p2.real| < eps →
      get_slope_intersect p1 p2 =
        .ok (some ((p2.imag - p1.imag) / (p2.real - p1.real)),
          p1.imag - (p2.imag - p1.imag) / (p2.real - p1.real) * p1.real)) ∧
    ((∃ e, get_slope_intersect p1 p2 = .error e) ↔
      ¬ |p1.real - p2.real| < eps ∧
        eps ≤ |(p1.imag - (p2.imag - p1.imag) / (p2.real - p1.real) * p1.real) -
               (p2.imag - (p2.imag - p1.imag) / (p2.real - p1.real) * p2.real)|) := by
  refine ⟨?_, ?_, ?_⟩
  · intro h
    rw [get_slope_intersect_eq_ok]
    unfold slope_intersect
    rw [if_pos h]
  · intro h
    rw [get_slope_intersect_eq_ok]
    unfold slope_intersect
    rw [if_neg h]
  · constructor
    · rintro ⟨e, he⟩
      rw [get_slope_intersect_eq_ok] at he
      exact absurd he (by simp)
    · rintro ⟨h, habs⟩
      exfalso
      rw [sub_eq_zero.mpr (intercepts_eq p1 p2 h)] at habs
      simp only [abs_zero] at habs
      exact absurd habs (not_le.mpr eps_pos)

/-- Witness for C7 at the concrete non-vertical pair `(0,0)`, `(2,1)`. -/
theorem C7_witness :
    (¬ |(Pt.mk 0 0).real - (Pt.mk 2 1).real| < eps) ∧
    get_slope_intersect ⟨0, 0⟩ ⟨2, 1⟩ = .ok (some (1 / 2), 0) := by
  have h : ¬ |(Pt.mk 0 0).real - (Pt.mk 2 1).real| < eps := by norm_num [eps]
  refine ⟨h, ?_⟩
  have := (C7_slope_intersect_characterization ⟨0, 0⟩ ⟨2, 1⟩).2.1 h
  rw [this]
  norm_num

/-- C8: the reducer is deterministic — identical inputs (same coordinate
values, same path and segment ordering) give identical removal/update
dicts, reconstructed paths and returned lists.  The embedding is a pure
function over insertion-ordered structures that model Python's
(insertion-ordered, deterministic) dict iteration, so the result depends
only on the input value. -/
theorem C8_deterministic (paths1 paths2 : List (List Prim)) (h : paths1 = paths2) :
    remove_redundant_lines paths1 = remove_redundant_lines paths2 := by
  rw [h]

/-- Witness for C8 at a concrete input. -/
theorem C8_witness :
    remove_redundant_lines [[Prim.line ⟨0, 0⟩ ⟨1, 0⟩]] =
      remove_redundant_lines [[Prim.line ⟨0, 0⟩ ⟨1, 0⟩]] :=
  C8_deterministic _ _ rfl

/-- C10: in reconstruction, membership in `to_remove` takes precedence:
a primitive whose `overall_index` is in `to_remove` (with matching recorded
indices) is dropped and counted as removed even when `to_update` also holds
a (stale) entry for the same index — so no primitive is both replaced and
removed. -/
theorem C10_removal_precedence (tr tu : DMap) (i path_index line_index : ℕ) (p : Prim)
    (e : Entry) (hin : dget tr i = some e) (_hu : dmem tu i)
    (hp : e.1 = path_index) (hl : e.2.1 = line_index) :
    filterStep tr tu i path_index line_index p = .ok (.removedOut p) := by
  unfold filterStep
  rw [hin]
  simp [hp, hl]

/-- Witness for C10: an index present in both dicts is dropped, not
replaced. -/
theorem C10_witness :
    dget [(1, (0, 1, Prim.line ⟨0, 0⟩ ⟨10, 0⟩))] 1 = some (0, 1, Prim.line ⟨0, 0⟩ ⟨10, 0⟩) ∧
    dmem [(1, (0, 1, Prim.line ⟨0, 0⟩ ⟨10, 0⟩))] 1 ∧
    filterStep [(1, (0, 1, Prim.line ⟨0, 0⟩ ⟨10, 0⟩))] [(1, (0, 1, Prim.line ⟨0, 0⟩ ⟨10, 0⟩))]
      1 0 1 (Prim.line ⟨3, 0⟩ ⟨10, 0⟩) = .ok (.removedOut (Prim.line ⟨3, 0⟩ ⟨10, 0⟩)) := by
  refine ⟨by simp [dget], by simp [dmem, dget], ?_⟩
  exact C10_removal_precedence _ _ 1 0 1 _ (0, 1, Prim.line ⟨0, 0⟩ ⟨10, 0⟩)
    (by simp [dget]) (by simp [dmem, dget]) rfl rfl

/-- All-changed passes exhaust the fuel and raise the max-passes error. -/
theorem runPasses_all_changed (m : ℕ) (f : ℕ → List BRec × DMap × DMap)
    (h : ∀ k, k < m →
      pairwise_overlap_check (f k).1 (f k).2.1 (f k).2.2 = .ok (true, f (k + 1))) :
    runPasses m (f 0).1 (f 0).2.1 (f 0).2.2 = .error .exceededMaxPasses := by
  induction m generalizing f with
  | zero => rfl
  | succ n ih =>
    have h0 := h 0 (Nat.succ_pos n)
    simp only [runPasses, h0, if_pos]
    exact ih (fun k => f (k + 1)) (fun k hk => h (k + 1) (Nat.succ_lt_succ hk))

/-- A pass reporting no change stops the loop with that pass's state. -/
theorem runPasses_stops (m n : ℕ) (f : ℕ → List BRec × DMap × DMap) (hnm : n < m)
    (hch : ∀ k, k < n →
      pairwise_overlap_check (f k).1 (f k).2.1 (f k).2.2 = .ok (true, f (k + 1)))
    (lines2 : List BRec) (tu2 tr2 : DMap)
    (hstop : pairwise_overlap_check (f n).1 (f n).2.1 (f n).2.2 = .ok (false, lines2, tu2, tr2)) :
    runPasses m (f 0).1 (f 0).2.1 (f 0).2.2 = .ok (lines2, tu2, tr2) := by
  induction n generalizing f m with
  | zero =>
    obtain ⟨m2, rfl⟩ : ∃ m2, m = m2 + 1 := ⟨m - 1, by omega⟩
    simp only [runPasses, hstop]
    rfl
  | succ n ih =>
    obtain ⟨m2, rfl⟩ : ∃ m2, m = m2 + 1 := ⟨m - 1, by omega⟩
    have h0 := hch 0 (Nat.succ_pos n)
    simp only [runPasses, h0, if_pos]
    exact ih m2 (fun k => f (k + 1)) (by omega) (fun k hk => hch (k + 1) (by omega)) hstop

/-- C6: the 20-pass loop of a bucket raises the fatal max-passes error
exactly in the all-changed situation: if each of the first 20 passes
reports a change, the loop exhausts its range and raises; and if some
pass among the first 20 reports no change, no error is raised and the
loop stops there, with that pass's state. -/
theorem C6_max_passes (f : ℕ → List BRec × DMap × DMap) :
    ((∀ k, k < 20 →
        pairwise_overlap_check (f k).1 (f k).2.1 (f k).2.2 = .ok (true, f (k + 1))) →
      runPasses 20 (f 0).1 (f 0).2.1 (f 0).2.2 = .error .exceededMaxPasses) ∧
    (∀ n, n < 20 →
      (∀ k, k < n →
        pairwise_overlap_check (f k).1 (f k).2.1 (f k).2.2 = .ok (true, f (k + 1))) →
      ∀ (lines2 : List BRec) (tu2 tr2 : DMap),
        pairwise_overlap_check (f n).1 (f n).2.1 (f n).2.2 = .ok (false, lines2, tu2, tr2) →
        runPasses 20 (f 0).1 (f 0).2.1 (f 0).2.2 = .ok (lines2, tu2, tr2)) :=
  ⟨runPasses_all_changed 20 f,
   fun n hn hch lines2 tu2 tr2 hstop => runPasses_stops 20 n f hn hch lines2 tu2 tr2 hstop⟩

/-- Witness for C6: a bucket whose very first pass reports no change stops
at that pass without an error. -/
theorem C6_witness :
    pairwise_overlap_check [] [] [] = .ok (false, [], [], []) ∧
    runPasses 20 [] [] [] = .ok ([], [], []) := by
  have h : pairwise_overlap_check [] [] [] = .ok (false, [], [], []) := rfl
  exact ⟨h, (C6_max_passes fun _ => ([], [], [])).2 0 (by norm_num)
    (fun k hk => absurd hk (by omega)) [] [] [] h⟩

/-- C2 (amended): the overlap branch keeps the dicts disjoint at the index
it removes — when it adds segment `i` to `to_remove` it deletes any stale
`to_update` entry for `i`, so after the branch `i` is in `to_remove` and
not in `to_update`.  (The full-containment branches perform no such
cleanup; `C2_counterexample` shows an index ending up in both dicts
through them.) -/
theorem C2_overlap_branch_cleanup (lines : List BRec) (ri rj : BRec) (j : ℕ)
    (rest : List ℕ) (tu tr : DMap)
    (hj : lines[j]? = some rj)
    (hnr : ¬ dmem tr rj.overall_index)
    (hcol : lines_are_collinear ri.line rj.line)
    (hc12 : ¬ contains12 ri.line rj.line)
    (hc21 : ¬ contains21 ri.line rj.line)
    (hov : overlapCond ri.line rj.line)
    (hnodup : (tu.map Prod.fst).Nodup)
    (hne : ri.overall_index ≠ rj.overall_index) :
    ∃ (lines2 : List BRec) (tu2 tr2 : DMap),
      jloop lines ri (j :: rest) tu tr = .ok (.merged lines2 tu2 tr2) ∧
      dmem tr2 ri.overall_index ∧ ¬ dmem tu2 ri.overall_index := by
  refine ⟨_, _, _, jloop_cons_merge lines ri rj j rest tu tr hj hnr hcol hc12 hc21 hov, ?_, ?_⟩
  · simp [dmem, dget_dinsert_self]
  · rw [dmem, dget_dinsert_ne _ _ _ _ (Ne.symm hne)]
    by_cases hmem : dmem tu ri.overall_index
    · rw [if_pos hmem, dget_derase_self tu ri.overall_index hnodup]
      simp
    · rw [if_neg hmem]
      simp only [dmem] at hmem ⊢
      simpa using hmem

/-- C5: two collinear segments that are merely end-to-end adjacent —
sharing an endpoint within `eps` in both coordinates, with none of line 2's
bounding-box corner values strictly inside line 1's span in a dimension and
neither bounding box containing the other — trigger neither the containment
branches nor the overlap branch, so the pairwise check leaves both
segments, and both dicts, unchanged. -/
theorem C5_adjacent_kept (r1 r2 : BRec) (tu tr : DMap)
    (h1 : ¬ dmem tr r1.overall_index) (h2 : ¬ dmem tr r2.overall_index)
    (hcol : lines_are_collinear r1.line r2.line)
    (_hadj : ∃ p ∈ [r1.line.start, r1.line.end_], ∃ q ∈ [r2.line.start, r2.line.end_],
      |p.real - q.real| < eps ∧ |p.imag - q.imag| < eps)
    (hc12 : ¬ contains12 r1.line r2.line) (hc21 : ¬ contains21 r1.line r2.line)
    (hx1 : ¬ (minX r1.line + eps < minX r2.line ∧ minX r2.line + eps < maxX r1.line))
    (hy1 : ¬ (minY r1.line + eps < minY r2.line ∧ minY r2.line + eps < maxY r1.line))
    (hx2 : ¬ (minX r1.line + eps < maxX r2.line ∧ maxX r2.line + eps < maxX r1.line))
    (hy2 : ¬ (minY r1.line + eps < maxY r2.line ∧ maxY r2.line + eps < maxY r1.line)) :
    pairwise_overlap_check [r1, r2] tu tr = .ok (false, [r1, r2], tu, tr) := by
  have hov : ¬ overlapCond r1.line r2.line := by
    rintro (⟨-, -, ha, hb⟩ | ⟨ha, hb, -, -⟩ | ⟨-, -, ha, hb⟩ | ⟨ha, hb, -, -⟩)
    · exact hy1 ⟨ha, hb⟩
    · exact hx1 ⟨ha, hb⟩
    · exact hy2 ⟨ha, hb⟩
    · exact hx2 ⟨ha, hb⟩
  have e0 : ([r1, r2] : List BRec)[0]? = some r1 := rfl
  have e1 : ([r1, r2] : List BRec)[1]? = some r2 := rfl
  have hrange : List.range' 0 ([r1, r2] : List BRec).length = [0, 1] := rfl
  unfold pairwise_overlap_check
  rw [hrange]
  simp only [iloop, e0, e1]
  rw [if_neg h1]
  have hrest : ([r1, r2] : List BRec).length - (0 + 1) = 1 := rfl
  simp only [hrest, List.range']
  simp only [jloop, e1]
  rw [if_neg h2]
  simp only [if_pos hcol]
  rw [if_neg hc12]
  rw [if_neg hc21]
  rw [if_neg hov]
  simp only [jloop, iloop, e1]
  rw [if_neg h2]

/-- Witness for C5 at the concrete adjacent pair `(0,0)-(5,0)`,
`(5,0)-(10,0)`: classified neither contained nor overlapping, both kept
unchanged. -/
theorem C5_witness :
    lines_are_collinear (Prim.line ⟨0, 0⟩ ⟨5, 0⟩) (Prim.line ⟨5, 0⟩ ⟨10, 0⟩) ∧
    ¬ contains12 (Prim.line ⟨0, 0⟩ ⟨5, 0⟩) (Prim.line ⟨5, 0⟩ ⟨10, 0⟩) ∧
    ¬ contains21 (Prim.line ⟨0, 0⟩ ⟨5, 0⟩) (Prim.line ⟨5, 0⟩ ⟨10, 0⟩) ∧
    pairwise_overlap_check
      [⟨0, 0, 0, Prim.line ⟨0, 0⟩ ⟨5, 0⟩⟩, ⟨1, 1, 0, Prim.line ⟨5, 0⟩ ⟨10, 0⟩⟩] [] [] =
      .ok (false,
        [⟨0, 0, 0, Prim.line ⟨0, 0⟩ ⟨5, 0⟩⟩, ⟨1, 1, 0, Prim.line ⟨5, 0⟩ ⟨10, 0⟩⟩], [], []) := by
  have hcol : lines_are_collinear (Prim.line ⟨0, 0⟩ ⟨5, 0⟩) (Prim.line ⟨5, 0⟩ ⟨10, 0⟩) := by
    norm_num [lines_are_collinear, slope_intersect, sameSlope, Prim.start, Prim.end_, eps]
  have hc12 : ¬ contains12 (Prim.line ⟨0, 0⟩ ⟨5, 0⟩) (Prim.line ⟨5, 0⟩ ⟨10, 0⟩) := by
    norm_num [minX, maxX, minY, maxY, Prim.start, Prim.end_, min_def, max_def, eps]
  have hc21 : ¬ contains21 (Prim.line ⟨0, 0⟩ ⟨5, 0⟩) (Prim.line ⟨5, 0⟩ ⟨10, 0⟩) := by
    norm_num [minX, maxX, minY, maxY, Prim.start, Prim.end_, min_def, max_def, eps]
  refine ⟨hcol, hc12, hc21, ?_⟩
  exact C5_adjacent_kept ⟨0, 0, 0, Prim.line ⟨0, 0⟩ ⟨5, 0⟩⟩ ⟨1, 1, 0, Prim.line ⟨5, 0⟩ ⟨10, 0⟩⟩
    [] [] (by simp [dmem, dget]) (by simp [dmem, dget]) hcol
    ⟨⟨5, 0⟩, by norm_num [Prim.start, Prim.end_], ⟨5, 0⟩, by norm_num [Prim.start, Prim.end_],
      by norm_num [eps]⟩
    hc12 hc21
    (by norm_num [minX, maxX, Prim.start, Prim.end_, min_def, max_def, eps])
    (by norm_num [minY, maxY, Prim.start, Prim.end_, min_def, max_def, eps])
    (by norm_num [minX, maxX, Prim.start, Prim.end_, min_def, max_def, eps])
    (by norm_num [minY, maxY, Prim.start, Prim.end_, min_def, max_def, eps])

/-- C1: when a collinear pair hits the overlap branch (neither containment
condition holds), the lower-indexed record `ri` is added to `to_remove`,
and the higher-indexed record `rj` is mutated in place to the pair of
maximum Euclidean distance among all pairs of the four endpoints (the six
pairs of the source's double loop; stated for all ordered pairs, which is
equivalent by symmetry) and recorded in `to_update`.  In particular, for
`(0,0)-(5,0)` and `(3,0)-(10,0)` the first is removed, the second becomes
`(0,0)-(10,0)`, and the removed/kept Euclidean lengths are `5` and `10`. -/
theorem C1_overlap_merge :
    (∀ (lines : List BRec) (ri rj : BRec) (j : ℕ) (rest : List ℕ) (tu tr : DMap),
      lines[j]? = some rj →
      ¬ dmem tr rj.overall_index →
      lines_are_collinear ri.line rj.line →
      ¬ contains12 ri.line rj.line →
      ¬ contains21 ri.line rj.line →
      overlapCond ri.line rj.line →
      ∃ (lines2 : List BRec) (tu2 tr2 : DMap) (nl : Prim),
        jloop lines ri (j :: rest) tu tr = .ok (.merged lines2 tu2 tr2) ∧
        dget tr2 ri.overall_index = some (ri.path_index, ri.line_index, ri.line) ∧
        lines2 = lines.set j { rj with line := nl } ∧
        dget tu2 rj.overall_index = some (rj.path_index, rj.line_index, nl) ∧
        nl = rj.line.setEnds (mergeBest ri.line rj.line).1 (mergeBest ri.line rj.line).2 ∧
        nl.start ∈ [ri.line.start, ri.line.end_, rj.line.start, rj.line.end_] ∧
        nl.end_ ∈ [ri.line.start, ri.line.end_, rj.line.start, rj.line.end_] ∧
        ∀ p ∈ [ri.line.start, ri.line.end_, rj.line.start, rj.line.end_],
          ∀ q ∈ [ri.line.start, ri.line.end_, rj.line.start, rj.line.end_],
            Real.sqrt (dist_sq p q : ℝ) ≤ Real.sqrt (dist_sq nl.start nl.end_ : ℝ)) ∧
    (remove_redundant_lines [[.line ⟨0, 0⟩ ⟨5, 0⟩], [.line ⟨3, 0⟩ ⟨10, 0⟩]] =
      .ok { toUpdate := [(1, 1, 0, .line ⟨0, 0⟩ ⟨10, 0⟩)],
            toRemove := [(0, 0, 0, .line ⟨0, 0⟩ ⟨5, 0⟩)],
            outPaths := [[], [.line ⟨0, 0⟩ ⟨10, 0⟩]],
            removedCount := 1,
            keptCount := 1,
            removedPrims := [.line ⟨0, 0⟩ ⟨5, 0⟩],
            ret := ([.line ⟨0, 0⟩ ⟨5, 0⟩], [.line ⟨0, 0⟩ ⟨10, 0⟩]) } ∧
     Real.sqrt ((Prim.line ⟨0, 0⟩ ⟨5, 0⟩).lengthSq : ℝ) = 5 ∧
     Real.sqrt ((Prim.line ⟨0, 0⟩ ⟨10, 0⟩).lengthSq : ℝ) = 10) := by
  constructor
  · intro lines ri rj j rest tu tr hj hnr hcol hc12 hc21 hov
    refine ⟨_, _, _, rj.line.setEnds (mergeBest ri.line rj.line).1 (mergeBest ri.line rj.line).2,
      jloop_cons_merge lines ri rj j rest tu tr hj hnr hcol hc12 hc21 hov,
      dget_dinsert_self _ _ _, rfl, dget_dinsert_self _ _ _, rfl, ?_, ?_, ?_⟩
    · rw [Prim.setEnds_start]
      exact (mergeBest_spec ri.line rj.line).1.1
    · rw [Prim.setEnds_end]
      exact (mergeBest_spec ri.line rj.line).1.2
    · intro p hp q hq
      rw [Prim.setEnds_start, Prim.setEnds_end]
      apply Real.sqrt_le_sqrt
      exact_mod_cast (mergeBest_spec ri.line rj.line).2 p hp q hq
  · refine ⟨?_, ?_, ?_⟩
    · norm_num [remove_redundant_lines, processBuckets, bucketize, scanPaths, scanPath,
        bucketKey, bucketAppend, slope_intersect, round3, roundHalfEven, runPasses,
        pairwise_overlap_check, iloop, jloop, lines_are_collinear, sameSlope,
        contains12, contains21, overlapCond, lenLeLenAddEps, minX, maxX, minY, maxY,
        mergeBest, dist_sq, Prim.lengthSq, Prim.start, Prim.end_, Prim.setEnds, Prim.isMove,
        selectLongest, allPairs, dinsert, derase, dget, dmem, dvalues,
        reconPaths, reconPath, filterStep, eps, List.range']
    · have h : ((Prim.line ⟨0, 0⟩ ⟨5, 0⟩).lengthSq : ℚ) = 25 := by
        norm_num [Prim.lengthSq, dist_sq, Prim.start, Prim.end_]
      rw [h]
      rw [show ((25 : ℚ) : ℝ) = 5 ^ 2 by norm_num]
      exact Real.sqrt_sq (by norm_num)
    · have h : ((Prim.line ⟨0, 0⟩ ⟨10, 0⟩).lengthSq : ℚ) = 100 := by
        norm_num [Prim.lengthSq, dist_sq, Prim.start, Prim.end_]
      rw [h]
      rw [show ((100 : ℚ) : ℝ) = 10 ^ 2 by norm_num]
      exact Real.sqrt_sq (by norm_num)

/-- Witness for C1: the overlap branch at the concrete records
`(0,0)-(5,0)` (index 0) and `(3,0)-(10,0)` (index 1): index 0 is removed,
index 1 is mutated to `(0,0)-(10,0)` and recorded in `to_update`, and the
merged segment is at least as long as, e.g., the candidate pair
`(3,0)`, `(5,0)`. -/
theorem C1_witness :
    overlapCond (Prim.line ⟨0, 0⟩ ⟨5, 0⟩) (Prim.line ⟨3, 0⟩ ⟨10, 0⟩) ∧
    ¬ contains12 (Prim.line ⟨0, 0⟩ ⟨5, 0⟩) (Prim.line ⟨3, 0⟩ ⟨10, 0⟩) ∧
    ¬ contains21 (Prim.line ⟨0, 0⟩ ⟨5, 0⟩) (Prim.line ⟨3, 0⟩ ⟨10, 0⟩) ∧
    lines_are_collinear (Prim.line ⟨0, 0⟩ ⟨5, 0⟩) (Prim.line ⟨3, 0⟩ ⟨10, 0⟩) ∧
    jloop [⟨0, 0, 0, Prim.line ⟨0, 0⟩ ⟨5, 0⟩⟩, ⟨1, 1, 0, Prim.line ⟨3, 0⟩ ⟨10, 0⟩⟩]
        ⟨0, 0, 0, Prim.line ⟨0, 0⟩ ⟨5, 0⟩⟩ [1] [] [] =
      .ok (.merged
        [⟨0, 0, 0, Prim.line ⟨0, 0⟩ ⟨5, 0⟩⟩, ⟨1, 1, 0, Prim.line ⟨0, 0⟩ ⟨10, 0⟩⟩]
        [(1, (1, 0, Prim.line ⟨0, 0⟩ ⟨10, 0⟩))]
        [(0, (0, 0, Prim.line ⟨0, 0⟩ ⟨5, 0⟩))]) ∧
    Real.sqrt (dist_sq ⟨3, 0⟩ ⟨5, 0⟩ : ℝ) ≤ Real.sqrt (dist_sq ⟨0, 0⟩ ⟨10, 0⟩ : ℝ) := by
  have hov : overlapCond (Prim.line ⟨0, 0⟩ ⟨5, 0⟩) (Prim.line ⟨3, 0⟩ ⟨10, 0⟩) := by
    refine Or.inr (Or.inl ?_)
    norm_num [minX, maxX, minY, maxY, Prim.start, Prim.end_, min_def, max_def, eps]
  have hc12 : ¬ contains12 (Prim.line ⟨0, 0⟩ ⟨5, 0⟩) (Prim.line ⟨3, 0⟩ ⟨10, 0⟩) := by
    norm_num [minX, maxX, minY, maxY, Prim.start, Prim.end_, min_def, max_def, eps]
  have hc21 : ¬ contains21 (Prim.line ⟨0, 0⟩ ⟨5, 0⟩) (Prim.line ⟨3, 0⟩ ⟨10, 0⟩) := by
    norm_num [minX, maxX, minY, maxY, Prim.start, Prim.end_, min_def, max_def, eps]
  have hcol : lines_are_collinear (Prim.line ⟨0, 0⟩ ⟨5, 0⟩) (Prim.line ⟨3, 0⟩ ⟨10, 0⟩) := by
    norm_num [lines_are_collinear, slope_intersect, sameSlope, Prim.start, Prim.end_, eps]
  obtain ⟨l2, tu2, tr2, nl, hj, htr, hl2, htu, hnl, hs, he, hmax⟩ :=
    C1_overlap_merge.1
      [⟨0, 0, 0, Prim.line ⟨0, 0⟩ ⟨5, 0⟩⟩, ⟨1, 1, 0, Prim.line ⟨3, 0⟩ ⟨10, 0⟩⟩]
      ⟨0, 0, 0, Prim.line ⟨0, 0⟩ ⟨5, 0⟩⟩ ⟨1, 1, 0, Prim.line ⟨3, 0⟩ ⟨10, 0⟩⟩ 1 [] [] []
      rfl (by simp [dmem, dget]) hcol hc12 hc21 hov
  have hnl2 : nl = Prim.line ⟨0, 0⟩ ⟨10, 0⟩ := by
    rw [hnl]
    norm_num [mergeBest, selectLongest, allPairs, dist_sq, Prim.setEnds,
      Prim.start, Prim.end_]
  refine ⟨hov, hc12, hc21, hcol, ?_, ?_⟩
  · norm_num [jloop, lines_are_collinear, slope_intersect, sameSlope,
      contains12, contains21, overlapCond, minX, maxX, minY, maxY, min_def, max_def,
      mergeBest, selectLongest, allPairs, dist_sq, Prim.setEnds, Prim.isMove,
      Prim.start, Prim.end_, dinsert, derase, dget, dmem, eps]
  · have hb := hmax ⟨3, 0⟩ (by simp [Prim.start, Prim.end_]) ⟨5, 0⟩
      (by simp [Prim.start, Prim.end_])
    rwa [hnl2, Prim.start, Prim.end_] at hb

/-- Witness for the amended C2: the overlap branch at concrete records,
with a stale `to_update` entry for the removed index 0 that gets cleaned
up — after the branch, index 0 is in `to_remove` and no longer in
`to_update`. -/
theorem C2_witness :
    jloop [⟨0, 0, 0, Prim.line ⟨0, 0⟩ ⟨5, 0⟩⟩, ⟨1, 0, 1, Prim.line ⟨3, 0⟩ ⟨10, 0⟩⟩]
        ⟨0, 0, 0, Prim.line ⟨0, 0⟩ ⟨5, 0⟩⟩ [1] [(0, (0, 0, Prim.line ⟨0, 0⟩ ⟨4, 0⟩))] [] =
      .ok (.merged
        [⟨0, 0, 0, Prim.line ⟨0, 0⟩ ⟨5, 0⟩⟩, ⟨1, 0, 1, Prim.line ⟨0, 0⟩ ⟨10, 0⟩⟩]
        [(1, (0, 1, Prim.line ⟨0, 0⟩ ⟨10, 0⟩))]
        [(0, (0, 0, Prim.line ⟨0, 0⟩ ⟨5, 0⟩))]) ∧
    dmem [(0, (0, 0, Prim.line ⟨0, 0⟩ ⟨5, 0⟩))] 0 ∧
    ¬ dmem [(1, (0, 1, Prim.line ⟨0, 0⟩ ⟨10, 0⟩))] 0 := by
  have hov : overlapCond (Prim.line ⟨0, 0⟩ ⟨5, 0⟩) (Prim.line ⟨3, 0⟩ ⟨10, 0⟩) := by
    refine Or.inr (Or.inl ?_)
    norm_num [minX, maxX, minY, maxY, Prim.start, Prim.end_, min_def, max_def, eps]
  have hc12 : ¬ contains12 (Prim.line ⟨0, 0⟩ ⟨5, 0⟩) (Prim.line ⟨3, 0⟩ ⟨10, 0⟩) := by
    norm_num [minX, maxX, minY, maxY, Prim.start, Prim.end_, min_def, max_def, eps]
  have hc21 : ¬ contains21 (Prim.line ⟨0, 0⟩ ⟨5, 0⟩) (Prim.line ⟨3, 0⟩ ⟨10, 0⟩) := by
    norm_num [minX, maxX, minY, maxY, Prim.start, Prim.end_, min_def, max_def, eps]
  have hcol : lines_are_collinear (Prim.line ⟨0, 0⟩ ⟨5, 0⟩) (Prim.line ⟨3, 0⟩ ⟨10, 0⟩) := by
    norm_num [lines_are_collinear, slope_intersect, sameSlope, Prim.start, Prim.end_, eps]
  have hcomp : jloop [⟨0, 0, 0, Prim.line ⟨0, 0⟩ ⟨5, 0⟩⟩, ⟨1, 0, 1, Prim.line ⟨3, 0⟩ ⟨10, 0⟩⟩]
        ⟨0, 0, 0, Prim.line ⟨0, 0⟩ ⟨5, 0⟩⟩ [1] [(0, (0, 0, Prim.line ⟨0, 0⟩ ⟨4, 0⟩))] [] =
      .ok (.merged
        [⟨0, 0, 0, Prim.line ⟨0, 0⟩ ⟨5, 0⟩⟩, ⟨1, 0, 1, Prim.line ⟨0, 0⟩ ⟨10, 0⟩⟩]
        [(1, (0, 1, Prim.line ⟨0, 0⟩ ⟨10, 0⟩))]
        [(0, (0, 0, Prim.line ⟨0, 0⟩ ⟨5, 0⟩))]) := by
    norm_num [jloop, lines_are_collinear, slope_intersect, sameSlope,
      contains12, contains21, overlapCond, minX, maxX, minY, maxY, min_def, max_def,
      mergeBest, selectLongest, allPairs, dist_sq, Prim.setEnds, Prim.isMove,
      Prim.start, Prim.end_, dinsert, derase, dget, dmem, eps]
  obtain ⟨l2, tu2, tr2, hj, h1, h2⟩ :=
    C2_overlap_branch_cleanup
      [⟨0, 0, 0, Prim.line ⟨0, 0⟩ ⟨5, 0⟩⟩, ⟨1, 0, 1, Prim.line ⟨3, 0⟩ ⟨10, 0⟩⟩]
      ⟨0, 0, 0, Prim.line ⟨0, 0⟩ ⟨5, 0⟩⟩ ⟨1, 0, 1, Prim.line ⟨3, 0⟩ ⟨10, 0⟩⟩ 1 []
      [(0, (0, 0, Prim.line ⟨0, 0⟩ ⟨4, 0⟩))] []
      rfl (by simp [dmem, dget]) hcol hc12 hc21 hov (by simp) (by decide)
  rw [hcomp] at hj
  simp only [Except.ok.injEq, JRes.merged.injEq] at hj
  obtain ⟨he1, he2, he3⟩ := hj
  rw [← he3] at h1
  rw [← he2] at h2
  exact ⟨hcomp, h1, h2⟩

/-- Counterexample for C2 as stated: on the bucket `(0,0)-(5,0)`,
`(3,0)-(10,0)`, `(-10,0)-(20,0)` the second segment is first merged
(entering `to_update`) and later found fully contained in the third
(entering `to_remove` through the containment branch, which performs no
cleanup), so index 1 ends up in both dicts simultaneously. -/
theorem C2_counterexample :
    remove_redundant_lines
        [[.line ⟨0, 0⟩ ⟨5, 0⟩, .line ⟨3, 0⟩ ⟨10, 0⟩, .line ⟨-10, 0⟩ ⟨20, 0⟩]] =
      .ok resBothDicts ∧
    dmem resBothDicts.toRemove 1 ∧ dmem resBothDicts.toUpdate 1 := by
  refine ⟨?_, by simp [resBothDicts, dmem, dget], by simp [resBothDicts, dmem, dget]⟩
  norm_num [resBothDicts, remove_redundant_lines, processBuckets, bucketize, scanPaths, scanPath,
    bucketKey, bucketAppend, slope_intersect, round3, roundHalfEven, runPasses,
    pairwise_overlap_check, iloop, jloop, lines_are_collinear, sameSlope,
    contains12, contains21, overlapCond, lenLeLenAddEps, minX, maxX, minY, maxY,
    mergeBest, dist_sq, Prim.lengthSq, Prim.start, Prim.end_, Prim.setEnds, Prim.isMove,
    selectLongest, allPairs, dinsert, derase, dget, dmem, dvalues,
    reconPaths, reconPath, filterStep, eps, List.range']

/-- Counterexample for C3 as stated: `Close` primitives are bucketed like
any non-`Move` primitive (the bucketing only exempts `Move`), so a `Close`
collinear with and contained in another segment is removed outright — here
the `Close` at overall index 3 lands in `to_remove` and is dropped from its
path's reconstruction. -/
theorem C3_counterexample :
    remove_redundant_lines
        [[.line ⟨0, 0⟩ ⟨10, 0⟩],
         [.move ⟨6, 0⟩ ⟨6, 0⟩, .line ⟨6, 0⟩ ⟨2, 0⟩, .close ⟨2, 0⟩ ⟨6, 0⟩]] =
      .ok resCloseRemoved ∧
    dmem resCloseRemoved.toRemove 3 ∧
    resCloseRemoved.removedPrims = [.line ⟨6, 0⟩ ⟨2, 0⟩, .close ⟨2, 0⟩ ⟨6, 0⟩] ∧
    resCloseRemoved.outPaths = [[.line ⟨0, 0⟩ ⟨10, 0⟩], [.move ⟨6, 0⟩ ⟨6, 0⟩]] := by
  refine ⟨?_, by simp [resCloseRemoved, dmem, dget], rfl, rfl⟩
  norm_num [resCloseRemoved, remove_redundant_lines, processBuckets, bucketize, scanPaths, scanPath,
    bucketKey, bucketAppend, slope_intersect, round3, roundHalfEven, runPasses,
    pairwise_overlap_check, iloop, jloop, lines_are_collinear, sameSlope,
    contains12, contains21, overlapCond, lenLeLenAddEps, minX, maxX, minY, maxY,
    mergeBest, dist_sq, Prim.lengthSq, Prim.start, Prim.end_, Prim.setEnds, Prim.isMove,
    selectLongest, allPairs, dinsert, derase, dget, dmem, dvalues,
    reconPaths, reconPath, filterStep, eps, List.range']

/-- C3 (amended): a `Close` whose `overall_index` is in neither dict is
rewritten during reconstruction as an explicit straight `Line` from its
start to its end; in particular the degenerate `Close` `(0,0)→(0,0)` whose
preceding lines were fully removed is emitted as an explicit zero-length
`Line`, not dropped.  (Closes are, however, bucketed like lines and can
themselves be removed or merged — see `C3_counterexample`.) -/
theorem C3_close_rewrite :
    (∀ (tr tu : DMap) (i path_index line_index : ℕ) (s e : Pt),
      dget tr i = none → dget tu i = none →
      filterStep tr tu i path_index line_index (.close s e) = .ok (.keptOut (.line s e))) ∧
    remove_redundant_lines
        [[.line ⟨0, 0⟩ ⟨10, 0⟩],
         [.move ⟨0, 0⟩ ⟨0, 0⟩, .line ⟨0, 0⟩ ⟨10, 0⟩, .line ⟨10, 0⟩ ⟨0, 0⟩,
          .close ⟨0, 0⟩ ⟨0, 0⟩]] =
      .ok { toUpdate := [],
            toRemove := [(2, (1, 1, .line ⟨0, 0⟩ ⟨10, 0⟩)), (3, (1, 2, .line ⟨10, 0⟩ ⟨0, 0⟩))],
            outPaths := [[.line ⟨0, 0⟩ ⟨10, 0⟩],
                         [.move ⟨0, 0⟩ ⟨0, 0⟩, .line ⟨0, 0⟩ ⟨0, 0⟩]],
            removedCount := 2, keptCount := 3,
            removedPrims := [.line ⟨0, 0⟩ ⟨10, 0⟩, .line ⟨10, 0⟩ ⟨0, 0⟩],
            ret := ([.line ⟨0, 0⟩ ⟨10, 0⟩, .line ⟨10, 0⟩ ⟨0, 0⟩], []) } := by
  constructor
  · intro tr tu i path_index line_index s e h1 h2
    unfold filterStep
    rw [h1, h2]
  · norm_num [remove_redundant_lines, processBuckets, bucketize, scanPaths, scanPath,
      bucketKey, bucketAppend, slope_intersect, round3, roundHalfEven, runPasses,
      pairwise_overlap_check, iloop, jloop, lines_are_collinear, sameSlope,
      contains12, contains21, overlapCond, lenLeLenAddEps, minX, maxX, minY, maxY,
      mergeBest, dist_sq, Prim.lengthSq, Prim.start, Prim.end_, Prim.setEnds, Prim.isMove,
      selectLongest, allPairs, dinsert, derase, dget, dmem, dvalues,
      reconPaths, reconPath, filterStep, eps, List.range']

/-- Witness for C3: the degenerate `Close` at overall index 4 of the
scenario (both recorded dicts hold nothing for index 4) is rewritten as the
explicit zero-length `Line`. -/
theorem C3_witness :
    dget [(2, (1, 1, Prim.line ⟨0, 0⟩ ⟨10, 0⟩)), (3, (1, 2, Prim.line ⟨10, 0⟩ ⟨0, 0⟩))] 4 =
      none ∧
    dget ([] : DMap) 4 = none ∧
    filterStep [(2, (1, 1, Prim.line ⟨0, 0⟩ ⟨10, 0⟩)), (3, (1, 2, Prim.line ⟨10, 0⟩ ⟨0, 0⟩))]
        [] 4 1 3 (.close ⟨0, 0⟩ ⟨0, 0⟩) = .ok (.keptOut (.line ⟨0, 0⟩ ⟨0, 0⟩)) := by
  refine ⟨by simp [dget], rfl, ?_⟩
  exact C3_close_rewrite.1 _ _ 4 1 3 ⟨0, 0⟩ ⟨0, 0⟩ (by simp [dget]) rfl

/-- C9 (amended): the value `remove_redundant_lines` *returns* is exactly
the pair of lists `([to_remove[k][2] for k in to_remove],
[to_update[k][2] for k in to_update])`; the reconstructed paths are written
back into the document in place and the statistics are only printed, not
returned. -/
theorem C9_returns_pair (paths : List (List Prim)) (r : ReduceResult)
    (h : remove_redundant_lines paths = .ok r) :
    r.ret = (dvalues r.toRemove, dvalues r.toUpdate) := by
  unfold remove_redundant_lines at h
  rcases hp : processBuckets (bucketize paths) [] [] with e | tutr
  · rw [hp] at h
    simp at h
  · obtain ⟨tu, tr⟩ := tutr
    rw [hp] at h
    dsimp only at h
    rcases hr : reconPaths tr tu 0 ⟨0, 0, 0, []⟩ [] paths with e | stouts
    · rw [hr] at h
      simp at h
    · obtain ⟨st, outs⟩ := stouts
      rw [hr] at h
      dsimp only at h
      rw [Except.ok.injEq] at h
      rw [← h]

/-- Witness for the amended C9 at a concrete input. -/
theorem C9_witness :
    remove_redundant_lines [[Prim.line ⟨0, 0⟩ ⟨1, 0⟩]] = .ok resSingle ∧
    resSingle.ret = (dvalues resSingle.toRemove, dvalues resSingle.toUpdate) := by
  have h : remove_redundant_lines [[Prim.line ⟨0, 0⟩ ⟨1, 0⟩]] = .ok resSingle := by
    norm_num [resSingle, remove_redundant_lines, processBuckets, bucketize, scanPaths, scanPath,
      bucketKey, bucketAppend, slope_intersect, round3, roundHalfEven, runPasses,
      pairwise_overlap_check, iloop, jloop, lines_are_collinear, sameSlope,
      contains12, contains21, overlapCond, lenLeLenAddEps, minX, maxX, minY, maxY,
      mergeBest, dist_sq, Prim.lengthSq, Prim.start, Prim.end_, Prim.setEnds, Prim.isMove,
      selectLongest, allPairs, dinsert, derase, dget, dmem, dvalues,
      reconPaths, reconPath, filterStep, eps, List.range']
  exact ⟨h, C9_returns_pair _ _ h⟩

/-- Counterexample for C9 as stated: the returned value does not contain
the reconstructed paths or the statistics — two inputs with identical
return values have different reconstructed paths and kept counts. -/
theorem C9_counterexample :
    remove_redundant_lines [[.line ⟨0, 0⟩ ⟨1, 0⟩]] = .ok resSingle ∧
    remove_redundant_lines [[.line ⟨0, 0⟩ ⟨1, 0⟩], [.line ⟨5, 5⟩ ⟨6, 6⟩]] = .ok resTwoKept ∧
    resSingle.ret = resTwoKept.ret ∧
    resSingle.outPaths ≠ resTwoKept.outPaths ∧
    resSingle.keptCount ≠ resTwoKept.keptCount := by
  refine ⟨?_, ?_, rfl, by simp [resSingle, resTwoKept], by simp [resSingle, resTwoKept]⟩
  · norm_num [resSingle, remove_redundant_lines, processBuckets, bucketize, scanPaths, scanPath,
      bucketKey, bucketAppend, slope_intersect, round3, roundHalfEven, runPasses,
      pairwise_overlap_check, iloop, jloop, lines_are_collinear, sameSlope,
      contains12, contains21, overlapCond, lenLeLenAddEps, minX, maxX, minY, maxY,
      mergeBest, dist_sq, Prim.lengthSq, Prim.start, Prim.end_, Prim.setEnds, Prim.isMove,
      selectLongest, allPairs, dinsert, derase, dget, dmem, dvalues,
      reconPaths, reconPath, filterStep, eps, List.range']
  · norm_num [resTwoKept, remove_redundant_lines, processBuckets, bucketize, scanPaths, scanPath,
      bucketKey, bucketAppend, slope_intersect, round3, roundHalfEven, runPasses,
      pairwise_overlap_check, iloop, jloop, lines_are_collinear, sameSlope,
      contains12, contains21, overlapCond, lenLeLenAddEps, minX, maxX, minY, maxY,
      mergeBest, dist_sq, Prim.lengthSq, Prim.start, Prim.end_, Prim.setEnds, Prim.isMove,
      selectLongest, allPairs, dinsert, derase, dget, dmem, dvalues,
      reconPaths, reconPath, filterStep, eps, List.range']

/-- C4 evidence: the reducer is not idempotent.  On three collinear-within-
tolerance segments, the first run merges the first two (the merged segment's
rounded slope/intercept key differs from its bucket's key — it is no longer
near-vertical) and never compares the merged segment with the third, which
sits in the bucket the merged segment would now map to.  Running the
reducer again on the reconstructed output therefore performs one more
removal and one more merge instead of none. -/
theorem C4_second_run_not_empty :
    remove_redundant_lines
        [[.line ⟨0, 0⟩ ⟨9/10000, 10⟩, .line ⟨1/2500, 3⟩ ⟨13/10000, 12⟩,
          .line ⟨13/20000, 119999997/20000000⟩ ⟨13/5000, 119999997/5000000⟩]] =
      .ok resRun1 ∧
    remove_redundant_lines resRun1.outPaths = .ok resRun2 ∧
    resRun2.removedCount = 1 ∧ resRun2.toRemove ≠ [] ∧ resRun2.toUpdate ≠ [] := by
  refine ⟨?_, ?_, rfl, by simp [resRun2], by simp [resRun2]⟩
  · norm_num [resRun1, remove_redundant_lines, processBuckets, bucketize, scanPaths, scanPath,
      bucketKey, bucketAppend, slope_intersect, round3, roundHalfEven, runPasses,
      pairwise_overlap_check, iloop, jloop, lines_are_collinear, sameSlope,
      contains12, contains21, overlapCond, lenLeLenAddEps, minX, maxX, minY, maxY,
      mergeBest, dist_sq, Prim.lengthSq, Prim.start, Prim.end_, Prim.setEnds, Prim.isMove,
      selectLongest, allPairs, dinsert, derase, dget, dmem, dvalues,
      reconPaths, reconPath, filterStep, eps, List.range',
      abs_of_nonneg, abs_of_nonpos, Int.fract]
  · norm_num [resRun1, resRun2, remove_redundant_lines, processBuckets, bucketize, scanPaths, scanPath,
      bucketKey, bucketAppend, slope_intersect, round3, roundHalfEven, runPasses,
      pairwise_overlap_check, iloop, jloop, lines_are_collinear, sameSlope,
      contains12, contains21, overlapCond, lenLeLenAddEps, minX, maxX, minY, maxY,
      mergeBest, dist_sq, Prim.lengthSq, Prim.start, Prim.end_, Prim.setEnds, Prim.isMove,
      selectLongest, allPairs, dinsert, derase, dget, dmem, dvalues,
      reconPaths, reconPath, filterStep, eps, List.range',
      abs_of_nonneg, abs_of_nonpos, Int.fract]
